import Mathlib

/-!
Shallow embedding of the `patha454/networking` sources: the circular byte
buffer (`src/buffer.c`) and the simulated physical layer
(`include/networking/phy.h`, two variants of the file exist in the repo).
Bytes are modelled as `Nat`, C `size_t`/`int` values as `Nat` (all values
involved are small and non-negative; no arithmetic here can overflow a
64-bit `size_t`), null pointers as `Option.none`, and a fatal
`perror`/`exit(EXIT_FAILURE)` path as an `Except.error` outcome.
-/

/-- Model of `struct CircularBuffer` from `src/buffer.c`: a byte store `data` of
allocated length `length`, with a read cursor and a write cursor. -/
structure CircularBuffer where
  data : List Nat
  length : Nat
  readIndex : Nat
  writeIndex : Nat
  deriving DecidableEq, Repr

/-- Model of `bufferFree` from `src/buffer.c`: a null handle is a no-op; otherwise the
store is released and `length`, `readIndex`, `writeIndex` are reset to zero
and `data` to null ("guard against reads from a dangling pointer").  The
handle itself stays allocated, so we return the zeroed record. -/
def bufferFree : Option CircularBuffer → Option CircularBuffer
  | none => none
  | some _ => some { data := [], length := 0, readIndex := 0, writeIndex := 0 }

/-- Model of `bufferIsEmpty` from `src/buffer.c`: true iff `readIndex == writeIndex`. -/
def bufferIsEmpty (buffer : CircularBuffer) : Bool :=
  buffer.readIndex == buffer.writeIndex

/-- The computation of `bufferItems` from `src/buffer.c`, after its asserts
have passed: 0 when empty, otherwise the ready byte count (direct or
wrapped) divided by `itemSize`. -/
def bufferItems (buffer : CircularBuffer) (itemSize : Nat) : Nat :=
  if bufferIsEmpty buffer then 0
  else if buffer.writeIndex > buffer.readIndex then
    (buffer.writeIndex - buffer.readIndex) / itemSize
  else
    (buffer.length - (buffer.readIndex - buffer.writeIndex)) / itemSize

/-- Model of `bufferItems` including its asserted preconditions
(`assert(buffer != NULL)`, `assert(itemSize > 0)`): `none` models a failed
assertion (the call aborts instead of returning a count). -/
def bufferItemsChecked : Option CircularBuffer → Nat → Option Nat
  | none, _ => none
  | some buffer, itemSize =>
      if itemSize = 0 then none else some (bufferItems buffer itemSize)

/-- Outcome of one `bufferRead` call: the buffer state it leaves behind, the
bytes it copied into `output`, and its return value (`none` when the C
function returns an indeterminate value). -/
structure ReadOutcome where
  buffer : CircularBuffer
  copied : List Nat
  returned : Option Nat
  deriving DecidableEq, Repr

/-- Model of `bufferRead` from `src/buffer.c`, embedded faithfully: the three asserts
(`buffer != NULL`, `n > 0`, `output != NULL`) run in order (`none` models a
failed assertion), after which the body only computes a local occupancy and
falls off the end of the function: no byte is copied to `output`, no cursor
is moved, and the return value is indeterminate (modelled `returned = none`).
`outputValid` models whether the caller passed a non-null `output`. -/
def bufferRead (b : Option CircularBuffer) (n : Nat) (outputValid : Bool) :
    Option ReadOutcome :=
  match b with
  | none => none
  | some buffer =>
      if n = 0 then none
      else if outputValid = false then none
      else some { buffer := buffer, copied := [], returned := none }

/-- C6 (amended): with both cursors below the capacity and `itemSize > 0`,
`bufferItems` returns the occupied byte count `(writeIndex - readIndex) mod
length` (taken non-negative) divided by `itemSize` rounding down; it returns
0 whenever the buffer is empty, and with `itemSize = 1` it returns 0 exactly
when the buffer is empty. -/
theorem bufferItems_spec (b : CircularBuffer) (k : Nat)
    (hr : b.readIndex < b.length) (hw : b.writeIndex < b.length) (hk : 0 < k) :
    bufferItems b k
        = (((b.writeIndex : Int) - (b.readIndex : Int)) % (b.length : Int)).toNat / k
      ∧ (bufferIsEmpty b = true → bufferItems b k = 0)
      ∧ (k = 1 → (bufferItems b k = 0 ↔ bufferIsEmpty b = true)) := by
  have hmod : (((b.writeIndex : Int) - (b.readIndex : Int)) % (b.length : Int)).toNat
      = if b.readIndex ≤ b.writeIndex then b.writeIndex - b.readIndex
        else b.length - (b.readIndex - b.writeIndex) := by
    rcases le_or_lt b.readIndex b.writeIndex with h | h
    · rw [if_pos h]
      have h1 : ((b.writeIndex : Int) - (b.readIndex : Int)) % (b.length : Int)
          = (b.writeIndex : Int) - (b.readIndex : Int) :=
        Int.emod_eq_of_lt (by omega) (by omega)
      rw [h1]
      omega
    · rw [if_neg (by omega)]
      have h2 : ((b.writeIndex : Int) - (b.readIndex : Int) + (b.length : Int) * 1)
            % (b.length : Int)
          = ((b.writeIndex : Int) - (b.readIndex : Int)) % (b.length : Int) :=
        Int.add_mul_emod_self_left _ _ _
      rw [← h2, Int.emod_eq_of_lt (by omega) (by omega)]
      omega
  have hval : bufferItems b k
      = (if b.readIndex ≤ b.writeIndex then b.writeIndex - b.readIndex
         else b.length - (b.readIndex - b.writeIndex)) / k := by
    rw [bufferItems]
    rcases Nat.lt_trichotomy b.readIndex b.writeIndex with h | h | h
    · have he : bufferIsEmpty b = false := by
        simp only [bufferIsEmpty, beq_eq_false_iff_ne]; omega
      rw [he, if_neg (by simp), if_pos h, if_pos (Nat.le_of_lt h)]
    · have he : bufferIsEmpty b = true := by
        simp only [bufferIsEmpty, beq_iff_eq]; omega
      rw [he, if_pos rfl, if_pos (Nat.le_of_eq h), h, Nat.sub_self, Nat.zero_div]
    · have he : bufferIsEmpty b = false := by
        simp only [bufferIsEmpty, beq_eq_false_iff_ne]; omega
      rw [he, if_neg (by simp), if_neg (by omega), if_neg (by omega)]
  refine ⟨by rw [hval, hmod], ?_, ?_⟩
  · intro he
    have h : b.readIndex = b.writeIndex := by
      simpa [bufferIsEmpty] using he
    rw [hval, h, if_pos le_rfl, Nat.sub_self, Nat.zero_div]
  · intro hk1
    subst hk1
    rw [hval, Nat.div_one]
    constructor
    · intro h0
      simp only [bufferIsEmpty, beq_iff_eq]
      rcases le_or_lt b.readIndex b.writeIndex with h | h
      · rw [if_pos h] at h0; omega
      · rw [if_neg (by omega)] at h0; omega
    · intro he
      have h : b.readIndex = b.writeIndex := by
        simpa [bufferIsEmpty] using he
      rw [h, if_pos le_rfl, Nat.sub_self]

/-- C6 witness: the amended statement at a concrete buffer of capacity 3
holding one byte, queried with `itemSize = 1`. -/
theorem bufferItems_spec_witness :
    bufferItems ⟨[0, 0, 0], 3, 1, 2⟩ 1
        = ((((2 : Nat) : Int) - ((1 : Nat) : Int)) % (((3 : Nat)) : Int)).toNat / 1
      ∧ (bufferIsEmpty ⟨[0, 0, 0], 3, 1, 2⟩ = true
          → bufferItems ⟨[0, 0, 0], 3, 1, 2⟩ 1 = 0)
      ∧ (1 = 1 → (bufferItems ⟨[0, 0, 0], 3, 1, 2⟩ 1 = 0
          ↔ bufferIsEmpty ⟨[0, 0, 0], 3, 1, 2⟩ = true)) :=
  bufferItems_spec ⟨[0, 0, 0], 3, 1, 2⟩ 1 (by decide) (by decide) (by decide)

/-- C6 counterexample: a buffer of capacity 4 holding exactly one queued byte
is not empty, yet `bufferItems` with `itemSize = 2` returns 0, so the query
does not return 0 exactly when the buffer is empty. -/
theorem bufferItems_zero_but_not_empty :
    bufferItems ⟨[0, 0, 0, 0], 4, 0, 1⟩ 2 = 0
      ∧ bufferIsEmpty ⟨[0, 0, 0, 0], 4, 0, 1⟩ = false := by
  decide

/-- C5: evaluation of the source `bufferRead` at a failing input.  A buffer
of capacity 4 with 3 queued bytes and a request for 2 bytes: the code leaves
the buffer untouched, copies no byte into the output, and returns an
indeterminate value, instead of copying `min(2, 3) = 2` bytes, advancing
`readIndex`, and returning 2 as claimed. -/
theorem bufferRead_copies_nothing :
    bufferItems ⟨[10, 20, 30, 0], 4, 0, 3⟩ 1 = 3
      ∧ bufferRead (some ⟨[10, 20, 30, 0], 4, 0, 3⟩) 2 true
          = some { buffer := ⟨[10, 20, 30, 0], 4, 0, 3⟩, copied := [],
                   returned := none } := by
  decide

/-- C7: `bufferFree` is a no-op on a null handle, is idempotent (a second
destroy of an already-destroyed handle is safe), resets `length`,
`readIndex` and `writeIndex` to zero and releases the storage on a live
handle, and the resulting handle is empty, so every subsequent read finds no
data (occupancy 0 for every item size). -/
theorem bufferFree_spec :
    bufferFree none = none
      ∧ (∀ b, bufferFree (bufferFree b) = bufferFree b)
      ∧ (∀ buffer : CircularBuffer,
          bufferFree (some buffer)
            = some { data := [], length := 0, readIndex := 0, writeIndex := 0 })
      ∧ bufferIsEmpty { data := [], length := 0, readIndex := 0, writeIndex := 0 }
          = true
      ∧ ∀ k,
          bufferItems { data := [], length := 0, readIndex := 0, writeIndex := 0 } k
            = 0 := by
  refine ⟨rfl, ?_, fun _ => rfl, rfl, ?_⟩
  · intro b
    cases b <;> rfl
  · intro k
    simp [bufferItems, bufferIsEmpty]

/-- C8: the asserted preconditions of `bufferRead` (non-null buffer, `n > 0`,
non-null output) and `bufferItems` (non-null buffer, `itemSize > 0`): any
violating call fails its assertion (modelled `none`) instead of returning a
count, and under the preconditions the assertion branch is unreachable (the
call produces a result). -/
theorem buffer_assert_preconditions :
    (∀ n out, bufferRead none n out = none)
      ∧ (∀ b out, bufferRead (some b) 0 out = none)
      ∧ (∀ b n, bufferRead (some b) n false = none)
      ∧ (∀ k, bufferItemsChecked none k = none)
      ∧ (∀ b, bufferItemsChecked (some b) 0 = none)
      ∧ (∀ b n, 0 < n →
          bufferRead (some b) n true
            = some { buffer := b, copied := [], returned := none })
      ∧ (∀ b k, 0 < k → bufferItemsChecked (some b) k = some (bufferItems b k)) := by
  refine ⟨fun _ _ => rfl, fun _ _ => rfl, ?_, fun _ => rfl, fun _ => rfl, ?_, ?_⟩
  · intro b n
    rw [bufferRead]
    split <;> simp
  · intro b n hn
    rw [bufferRead, if_neg (by omega)]
    simp
  · intro b k hk
    rw [bufferItemsChecked, if_neg (by omega)]

/-- C8 witness: the precondition-satisfying branch at a concrete buffer, for
both `bufferRead` and `bufferItemsChecked`. -/
theorem buffer_assert_preconditions_witness :
    bufferRead (some ⟨[0], 1, 0, 0⟩) 2 true
        = some { buffer := ⟨[0], 1, 0, 0⟩, copied := [], returned := none }
      ∧ bufferItemsChecked (some ⟨[0], 1, 0, 0⟩) 1
          = some (bufferItems ⟨[0], 1, 0, 0⟩ 1) :=
  ⟨buffer_assert_preconditions.2.2.2.2.2.1 ⟨[0], 1, 0, 0⟩ 2 (by decide),
   buffer_assert_preconditions.2.2.2.2.2.2 ⟨[0], 1, 0, 0⟩ 1 (by decide)⟩

/-- Constant `MAX_PHY_ENDPOINTS` from the phy sources: the maximum number of
simulated clients. -/
def MAX_PHY_ENDPOINTS : Nat := 256

/-- Constant `MAX_EPOLL_EVENTS` from `src/unnamed/part_000`: the maximum
number of pending epoll events returned per scan. -/
def MAX_EPOLL_EVENTS : Nat := 16

/-- Constant `PHY_BUFFER_SIZE` from `src/unnamed/part_000`: the size in
bytes of the scratch buffer used when copying from sockets. -/
def PHY_BUFFER_SIZE : Nat := 4096

/-- Model of `struct Phy` from `src/unnamed/part_000`: client count, epoll
descriptor, the socket table (length `MAX_PHY_ENDPOINTS`; file descriptors
modelled as `Nat`), and the epoll scratch event array (length
`MAX_EPOLL_EVENTS`; only the `data.fd` of each event is retained). -/
structure PhyState where
  clients : Nat
  epoll : Nat
  sockets : List Nat
  events : List Nat
  deriving DecidableEq, Repr

/-- Model of `phyAlloc`: `calloc` produces the all-zero record (the
allocation-failure path returns NULL to the caller and builds no state). -/
def phyAlloc : PhyState :=
  { clients := 0, epoll := 0,
    sockets := List.replicate MAX_PHY_ENDPOINTS 0,
    events := List.replicate MAX_EPOLL_EVENTS 0 }

/-- Error kinds of the phy layer; the C sources report them through
`perror` and `exit(EXIT_FAILURE)`, which the embedding renders as an
`Except.error` outcome. -/
inductive PhyError
  | CapacityExceeded
  | TransportCreationFailure
  | RegistrationFailure
  deriving DecidableEq, Repr

/-- Model of `phyConnect` from `src/unnamed/part_000`.  The fresh socketpair
is supplied by the environment as `internalFd = endpoints[0]` and
`externalFd = endpoints[1]`.  On a full table the code dies
(`exit(EXIT_FAILURE)`), modelled as `Except.error CapacityExceeded` with the
state unchanged.  Otherwise the internal fd is registered with the epoll
instance carrying `events.data.fd = endpoints[0]`, stored at slot
`clients`, and the external fd is returned: the success value is the triple
(returned external fd, fd added to epoll, event data attached). -/
def phyConnect (phy : PhyState) (internalFd externalFd : Nat) :
    PhyState × Except PhyError (Nat × Nat × Nat) :=
  if phy.clients = MAX_PHY_ENDPOINTS then
    (phy, Except.error PhyError.CapacityExceeded)
  else
    ({ phy with sockets := phy.sockets.set phy.clients internalFd,
                clients := phy.clients + 1 },
     Except.ok (externalFd, internalFd, internalFd))

/-- Model of `phyConnect` from `src/src/phy.c` (the second variant of the
file in the repo).  Identical to the part_000 variant except that it sets
`events.data.fd = phy->clients`, attaching the pre-attach client count
rather than the internal fd as event data. -/
def phyConnectV2 (phy : PhyState) (internalFd externalFd : Nat) :
    PhyState × Except PhyError (Nat × Nat × Nat) :=
  if phy.clients = MAX_PHY_ENDPOINTS then
    (phy, Except.error PhyError.CapacityExceeded)
  else
    ({ phy with sockets := phy.sockets.set phy.clients internalFd,
                clients := phy.clients + 1 },
     Except.ok (externalFd, internalFd, phy.clients))

/-- Observable state of the socket environment around one PHY: `pending fd`
is the byte stream currently queued for the medium to `read` from socket
`fd`; `received fd` is everything the medium has written into socket `fd`
so far. -/
structure SocketWorld where
  pending : Nat → List Nat
  received : Nat → List Nat

/-- Internal sockets currently attached to the PHY: the first `clients`
entries of the socket table. -/
def activeSockets (phy : PhyState) : List Nat :=
  phy.sockets.take phy.clients

/-- Splits a byte stream into the successive chunks a `read` loop with a
buffer of `sz` bytes obtains: each `read` returns at most `sz` bytes and
the loop stops when a read returns 0 bytes. -/
def chunks (sz : Nat) (bs : List Nat) : List (List Nat) :=
  if h1 : bs.isEmpty then []
  else if h2 : sz = 0 then [bs]
  else
    have hb : 0 < bs.length := by
      cases bs
      · simp at h1
      · simp
    have hlen : (bs.drop sz).length < bs.length := by
      rw [List.length_drop]
      omega
    bs.take sz :: chunks sz (bs.drop sz)
termination_by bs.length

/-- Model of `writeToSocket` from `src/unnamed/part_000`: loops `write`
until the whole buffer has been written, so the full chunk is appended to
the received stream of the destination socket (the write-failure path
dies). -/
def writeToSocket (recv : Nat → List Nat) (socketFd : Nat)
    (buffer : List Nat) : Nat → List Nat :=
  Function.update recv socketFd (recv socketFd ++ buffer)

/-- The inner for-loop of `phyPropagateFromSocket`: walks the attached
sockets in slot order and writes the chunk to every socket other than the
one being drained (`continue` when `phy->sockets[i] == socketFd`). -/
def deliverChunk (senderFd : Nat) (buffer : List Nat) :
    List Nat → (Nat → List Nat) → Nat → List Nat
  | [], recv => recv
  | s :: rest, recv =>
      if s = senderFd then deliverChunk senderFd buffer rest recv
      else deliverChunk senderFd buffer rest (writeToSocket recv s buffer)

/-- Model of `phyPropagateFromSocket` from `src/unnamed/part_000`: reads
successive chunks of up to `PHY_BUFFER_SIZE` bytes from `socketFd` until a
read reports no more data, and echoes each chunk, in order, into every
other attached socket.  Afterwards the pending stream of `socketFd` is
drained. -/
def phyPropagateFromSocket (phy : PhyState) (socketFd : Nat)
    (w : SocketWorld) : SocketWorld :=
  { pending := Function.update w.pending socketFd [],
    received := (chunks PHY_BUFFER_SIZE (w.pending socketFd)).foldl
      (fun recv c => deliverChunk socketFd c (activeSockets phy) recv)
      w.received }

/-- Registered sockets that currently have data available, in slot order
(the actual epoll readiness order is implementation-defined; any fixed
order is a faithful instance). -/
def readyFds (phy : PhyState) (w : SocketWorld) : List Nat :=
  (activeSockets phy).filter (fun fd => !(w.pending fd).isEmpty)

/-- The event list `epoll_wait(phy->epoll, phy->events, MAX_EPOLL_EVENTS, 0)`
hands back: the ready sockets, capped at `MAX_EPOLL_EVENTS` entries. -/
def epollReturn (phy : PhyState) (w : SocketWorld) : List Nat :=
  (readyFds phy w).take MAX_EPOLL_EVENTS

/-- Model of `phyPropagate` from `src/unnamed/part_000`: one zero-timeout
poll of the multiplexer, then `phyPropagateFromSocket` for each returned
event in order.  `epoll_wait` overwrites the first `pendingEvents` entries
of the scratch event array and leaves the rest as they were. -/
def phyPropagate (phy : PhyState) (w : SocketWorld) :
    PhyState × SocketWorld :=
  ({ phy with events :=
      epollReturn phy w ++ phy.events.drop (epollReturn phy w).length },
   (epollReturn phy w).foldl
     (fun wa fd => phyPropagateFromSocket phy fd wa) w)

/-- The slot-zeroing loop of `phyShutdown`: `sockets[i] = 0` for every
`i < clients`. -/
def zeroFirst : Nat → List Nat → List Nat
  | 0, l => l
  | _ + 1, [] => []
  | n + 1, _ :: xs => 0 :: zeroFirst n xs

/-- Model of `phyShutdown` from `src/unnamed/part_000`: closes the epoll
instance and every attached socket (fd closure is an environment effect),
zeroes the socket slots that were in use, and resets `clients` and `epoll`
to 0.  The memory of the PHY record itself is not released. -/
def phyShutdown (phy : PhyState) : PhyState :=
  { phy with epoll := 0, clients := 0,
             sockets := zeroFirst phy.clients phy.sockets }

/-- Concatenating the chunks of a read loop recovers the original stream. -/
theorem chunks_join (sz : Nat) (hsz : sz ≠ 0) (bs : List Nat) :
    (chunks sz bs).flatten = bs := by
  rw [chunks]
  by_cases h1 : bs.isEmpty
  · rw [dif_pos h1]
    simp [List.isEmpty_iff.mp h1]
  · rw [dif_neg h1, dif_neg hsz]
    have hb : 0 < bs.length := by
      cases bs
      · simp at h1
      · simp
    have hlt : (bs.drop sz).length < bs.length := by
      rw [List.length_drop]
      omega
    have ih := chunks_join sz hsz (bs.drop sz)
    simp [ih]
termination_by bs.length

/-- Sockets not in the slot list receive nothing from `deliverChunk`. -/
theorem deliverChunk_not_mem (senderFd : Nat) (c : List Nat)
    (l : List Nat) (recv : Nat → List Nat) (g : Nat) (hg : g ∉ l) :
    deliverChunk senderFd c l recv g = recv g := by
  induction l generalizing recv with
  | nil => rfl
  | cons s rest ih =>
    have hgs : g ≠ s := fun h => hg (h ▸ List.mem_cons_self s rest)
    have hgr : g ∉ rest := fun h => hg (List.mem_cons_of_mem _ h)
    rw [deliverChunk]
    split
    · exact ih recv hgr
    · rw [ih _ hgr, writeToSocket, Function.update_noteq hgs]

/-- The drained socket never receives its own chunk back. -/
theorem deliverChunk_sender (senderFd : Nat) (c : List Nat)
    (l : List Nat) (recv : Nat → List Nat) :
    deliverChunk senderFd c l recv senderFd = recv senderFd := by
  induction l generalizing recv with
  | nil => rfl
  | cons s rest ih =>
    rw [deliverChunk]
    split
    · exact ih recv
    · next hs =>
      rw [ih _, writeToSocket, Function.update_noteq (fun h => hs h.symm)]

/-- Every attached socket other than the sender receives exactly the chunk,
appended to what it already held (slot list without duplicates). -/
theorem deliverChunk_mem (senderFd : Nat) (c : List Nat)
    (l : List Nat) (g : Nat) (hne : g ≠ senderFd) :
    ∀ recv : Nat → List Nat, l.Nodup → g ∈ l →
      deliverChunk senderFd c l recv g = recv g ++ c := by
  induction l with
  | nil =>
    intro recv _ hg
    cases hg
  | cons s rest ih =>
    intro recv hnd hg
    have hnds : s ∉ rest := (List.nodup_cons.mp hnd).1
    have hndr : rest.Nodup := (List.nodup_cons.mp hnd).2
    rw [deliverChunk]
    rcases List.mem_cons.mp hg with rfl | hgr
    · rw [if_neg hne]
      rw [deliverChunk_not_mem _ _ _ _ _ hnds, writeToSocket,
        Function.update_same]
    · have hgs : g ≠ s := fun h => hnds (h ▸ hgr)
      split
      · exact ih recv hndr hgr
      · rw [ih _ hndr hgr, writeToSocket, Function.update_noteq hgs]

/-- Folding `deliverChunk` over a chunk list delivers the concatenation of
all chunks, in order, to every attached non-sender socket. -/
theorem foldl_deliver_mem (senderFd : Nat) (l : List Nat)
    (cs : List (List Nat)) (recv : Nat → List Nat) (g : Nat)
    (hnd : l.Nodup) (hg : g ∈ l) (hne : g ≠ senderFd) :
    (cs.foldl (fun r c => deliverChunk senderFd c l r) recv) g
      = recv g ++ cs.flatten := by
  induction cs generalizing recv with
  | nil => simp
  | cons c cs ih =>
    rw [List.foldl_cons, ih, deliverChunk_mem senderFd c l g hne recv hnd hg]
    simp

/-- Folding `deliverChunk` over a chunk list delivers nothing to the
sender. -/
theorem foldl_deliver_sender (senderFd : Nat) (l : List Nat)
    (cs : List (List Nat)) (recv : Nat → List Nat) :
    (cs.foldl (fun r c => deliverChunk senderFd c l r) recv) senderFd
      = recv senderFd := by
  induction cs generalizing recv with
  | nil => rfl
  | cons c cs ih =>
    rw [List.foldl_cons, ih, deliverChunk_sender]

/-- Draining a socket empties exactly its pending stream. -/
theorem phyPropagateFromSocket_pending (phy : PhyState) (f : Nat)
    (w : SocketWorld) :
    (phyPropagateFromSocket phy f w).pending
      = Function.update w.pending f [] := rfl

/-- C1: on a propagation tick, draining a ready endpoint delivers the bytes
it had pending, verbatim, in full, and in the order written, appended to
the received stream of every other attached endpoint, while the drained
endpoint itself receives nothing (no self-delivery); afterwards its pending
stream is empty.  (Table without duplicate descriptors, as `socketpair`
guarantees.) -/
theorem phyPropagateFromSocket_spec (phy : PhyState) (socketFd : Nat)
    (w : SocketWorld) (hnd : (activeSockets phy).Nodup) (g : Nat)
    (hg : g ∈ activeSockets phy) (hne : g ≠ socketFd) :
    (phyPropagateFromSocket phy socketFd w).received g
        = w.received g ++ w.pending socketFd
      ∧ (phyPropagateFromSocket phy socketFd w).received socketFd
        = w.received socketFd
      ∧ (phyPropagateFromSocket phy socketFd w).pending socketFd = [] := by
  refine ⟨?_, ?_, ?_⟩
  · show ((chunks PHY_BUFFER_SIZE (w.pending socketFd)).foldl
        (fun recv c => deliverChunk socketFd c (activeSockets phy) recv)
        w.received) g = _
    rw [foldl_deliver_mem socketFd (activeSockets phy) _ w.received g hnd hg
      hne]
    rw [chunks_join PHY_BUFFER_SIZE (by decide) (w.pending socketFd)]
  · show ((chunks PHY_BUFFER_SIZE (w.pending socketFd)).foldl
        (fun recv c => deliverChunk socketFd c (activeSockets phy) recv)
        w.received) socketFd = _
    rw [foldl_deliver_sender]
  · rw [phyPropagateFromSocket_pending, Function.update_same]

/-- Demonstration PHY with three attached endpoints holding internal fds 1,
2 and 3. -/
def phyDemo : PhyState :=
  { clients := 3, epoll := 4,
    sockets := 1 :: 2 :: 3 :: List.replicate 253 0,
    events := List.replicate MAX_EPOLL_EVENTS 0 }

/-- Socket environment where endpoint fd 1 has the bytes 10, 20, 30 pending
and nothing has been delivered yet. -/
def worldDemo : SocketWorld :=
  { pending := fun fd => if fd = 1 then [10, 20, 30] else [],
    received := fun _ => [] }

/-- C1 witness: on the three-endpoint demonstration PHY, draining fd 1
appends its three pending bytes to the stream received by fd 2, delivers
nothing back to fd 1, and leaves fd 1 with no pending data. -/
theorem phyPropagateFromSocket_spec_witness :
    (phyPropagateFromSocket phyDemo 1 worldDemo).received 2
        = worldDemo.received 2 ++ worldDemo.pending 1
      ∧ (phyPropagateFromSocket phyDemo 1 worldDemo).received 1
        = worldDemo.received 1
      ∧ (phyPropagateFromSocket phyDemo 1 worldDemo).pending 1 = [] :=
  phyPropagateFromSocket_spec phyDemo 1 worldDemo (by decide) 2 (by decide)
    (by decide)

/-- The world component of a propagate call is the fold of the per-socket
relay over the events `epoll_wait` returned. -/
theorem phyPropagate_world (phy : PhyState) (w : SocketWorld) :
    (phyPropagate phy w).2
      = (epollReturn phy w).foldl
          (fun wa fd => phyPropagateFromSocket phy fd wa) w := rfl

/-- After folding the per-socket relay over a list of sockets, exactly the
sockets in the list have been drained. -/
theorem foldl_propagate_pending (phy : PhyState) (l : List Nat) :
    ∀ (w : SocketWorld) (fd : Nat),
      (l.foldl (fun wa f => phyPropagateFromSocket phy f wa) w).pending fd
        = if fd ∈ l then [] else w.pending fd := by
  induction l with
  | nil =>
    intro w fd
    simp
  | cons f rest ih =>
    intro w fd
    rw [List.foldl_cons, ih]
    by_cases hf : fd ∈ rest
    · rw [if_pos hf, if_pos (List.mem_cons_of_mem _ hf)]
    · rw [if_neg hf, phyPropagateFromSocket_pending]
      by_cases hffd : fd = f
      · subst hffd
        rw [if_pos (List.mem_cons_self _ _), Function.update_same]
      · rw [if_neg (by simp [hffd, hf]), Function.update_noteq hffd]

/-- C2 (amended): one propagate call performs the relay for the first
`min(#ready, MAX_EPOLL_EVENTS)` currently-ready endpoints; in particular,
whenever at most `MAX_EPOLL_EVENTS` (16) endpoints are ready it runs the
relay to completion for every one of them, draining all their pending
bytes, regardless of which endpoints they are. -/
theorem phyPropagate_drains_ready (phy : PhyState) (w : SocketWorld)
    (h : (readyFds phy w).length ≤ MAX_EPOLL_EVENTS) :
    ∀ fd ∈ readyFds phy w, (phyPropagate phy w).2.pending fd = [] := by
  intro fd hfd
  have htake : epollReturn phy w = readyFds phy w := by
    rw [epollReturn, List.take_of_length_le h]
  rw [phyPropagate_world, htake, foldl_propagate_pending, if_pos hfd]

/-- C2 witness: on the demonstration PHY only one endpoint is ready, so the
propagate call drains it. -/
theorem phyPropagate_drains_ready_witness :
    (phyPropagate phyDemo worldDemo).2.pending 1 = [] :=
  phyPropagate_drains_ready phyDemo worldDemo (by decide) 1 (by decide)

/-- PHY with seventeen attached endpoints holding internal fds 1 … 17. -/
def phyBig : PhyState :=
  { clients := 17, epoll := 200,
    sockets := (List.range 17).map (fun i => i + 1) ++ List.replicate 239 0,
    events := List.replicate MAX_EPOLL_EVENTS 0 }

/-- Socket environment where all seventeen endpoints of `phyBig` have one
byte pending. -/
def worldBig : SocketWorld :=
  { pending := fun fd => if 1 ≤ fd ∧ fd ≤ 17 then [7] else [],
    received := fun _ => [] }

/-- C2 counterexample: with seventeen endpoints ready at the moment of the
poll, `epoll_wait` is capped at `MAX_EPOLL_EVENTS = 16` events, so the
propagate call returns with one currently-ready endpoint (fd 17) never
drained: its pending byte has not been relayed. -/
theorem phyPropagate_misses_seventeenth :
    17 ∈ readyFds phyBig worldBig
      ∧ (phyPropagate phyBig worldBig).2.pending 17 ≠ [] := by
  decide

/-- C4: a propagate call made while no attached endpoint has pending data
is a no-op: the poll returns no event, no byte is relayed, no error is
raised, and both the PHY state and the socket environment are unchanged. -/
theorem phyPropagate_noop (phy : PhyState) (w : SocketWorld)
    (h : ∀ fd ∈ activeSockets phy, w.pending fd = []) :
    phyPropagate phy w = (phy, w) := by
  have hready : readyFds phy w = [] := by
    rw [readyFds, List.filter_eq_nil_iff]
    intro fd hfd
    simp [h fd hfd]
  have hzero : epollReturn phy w = [] := by
    rw [epollReturn, hready]
    rfl
  rw [phyPropagate, hzero]
  rfl

/-- C4 witness: propagate on the demonstration PHY in a fully idle socket
environment returns the state unchanged. -/
theorem phyPropagate_noop_witness :
    phyPropagate phyDemo { pending := fun _ => [], received := fun _ => [] }
      = (phyDemo, { pending := fun _ => [], received := fun _ => [] }) :=
  phyPropagate_noop phyDemo _ (fun _ _ => rfl)

/-- C3: an attach when the table already holds `MAX_PHY_ENDPOINTS` (256)
endpoints fails with `CapacityExceeded` (the fatal exit of the source,
rendered as an error outcome) and leaves the endpoint count and the whole
table unchanged; an attach below the maximum stores the internal half of
the pair at the next slot, registers the internal fd with the multiplexer,
bumps the count by one, and returns the external half. -/
theorem phyConnect_spec (phy : PhyState) (internalFd externalFd : Nat) :
    (phy.clients = MAX_PHY_ENDPOINTS →
      phyConnect phy internalFd externalFd
          = (phy, Except.error PhyError.CapacityExceeded)
        ∧ (phyConnect phy internalFd externalFd).1.clients = phy.clients)
      ∧ (phy.clients < MAX_PHY_ENDPOINTS →
        phyConnect phy internalFd externalFd
          = ({ phy with
                sockets := phy.sockets.set phy.clients internalFd,
                clients := phy.clients + 1 },
             Except.ok (externalFd, internalFd, internalFd))) := by
  constructor
  · intro h
    rw [phyConnect, if_pos h]
    exact ⟨rfl, rfl⟩
  · intro h
    rw [phyConnect, if_neg (by omega)]

/-- PHY whose endpoint table is full: 256 attached endpoints. -/
def phyFull : PhyState :=
  { clients := 256, epoll := 4,
    sockets := List.replicate MAX_PHY_ENDPOINTS 9,
    events := List.replicate MAX_EPOLL_EVENTS 0 }

/-- C3 witness: attaching to the full PHY fails with `CapacityExceeded`
without touching the state; attaching fresh socketpair (30, 31) to the
three-endpoint demonstration PHY stores 30, registers it, and returns 31. -/
theorem phyConnect_spec_witness :
    phyConnect phyFull 30 31 = (phyFull, Except.error PhyError.CapacityExceeded)
      ∧ phyConnect phyDemo 30 31
          = ({ phyDemo with
                sockets := phyDemo.sockets.set phyDemo.clients 30,
                clients := phyDemo.clients + 1 },
             Except.ok (31, 30, 30)) :=
  ⟨((phyConnect_spec phyFull 30 31).1 (by decide)).1,
   (phyConnect_spec phyDemo 30 31).2 (by decide)⟩

/-- C9 counterexample: attaching socketpair (5, 6) to a fresh PHY, the
part_000 `phyConnect` registers event data 5 (the internal descriptor)
while the `src/phy.c` variant registers event data 0 (the pre-attach client
count), so the two implementations do not both attach the internal file
descriptor as the event data of the multiplexer registration. -/
theorem phyConnect_variants_differ :
    (phyConnect phyAlloc 5 6).2 = Except.ok (6, 5, 5)
      ∧ (phyConnectV2 phyAlloc 5 6).2 = Except.ok (6, 5, 0)
      ∧ (phyConnect phyAlloc 5 6).2 ≠ (phyConnectV2 phyAlloc 5 6).2 := by
  refine ⟨rfl, rfl, fun h => ?_⟩
  have h2 : (Except.ok (6, 5, 5) : Except PhyError (Nat × Nat × Nat))
      = Except.ok (6, 5, 0) := h
  simp at h2

/-- C9 (amended): the two `phyConnect` implementations agree on the
resulting PHY state (same internal descriptor in the same slot), on the
returned external descriptor, and on the fd added to the multiplexer; they
differ only in the event data attached to the registration, which is the
internal fd in part_000 but the pre-attach client count in `src/phy.c`. -/
theorem phyConnect_variants_agree (phy : PhyState) (i e : Nat) :
    (phyConnect phy i e).1 = (phyConnectV2 phy i e).1
      ∧ ((phyConnect phy i e).2.map fun r => (r.1, r.2.1))
          = ((phyConnectV2 phy i e).2.map fun r => (r.1, r.2.1))
      ∧ (phy.clients ≠ MAX_PHY_ENDPOINTS →
          (phyConnect phy i e).2 = Except.ok (e, i, i)
            ∧ (phyConnectV2 phy i e).2 = Except.ok (e, i, phy.clients)) := by
  rw [phyConnect, phyConnectV2]
  by_cases h : phy.clients = MAX_PHY_ENDPOINTS
  · rw [if_pos h, if_pos h]
    exact ⟨rfl, rfl, fun hn => absurd h hn⟩
  · rw [if_neg h, if_neg h]
    exact ⟨rfl, rfl, fun _ => ⟨rfl, rfl⟩⟩

/-- C9 witness: the amended agreement at a fresh PHY and socketpair (5, 6),
with the below-capacity hypothesis discharged. -/
theorem phyConnect_variants_agree_witness :
    (phyConnect phyAlloc 5 6).1 = (phyConnectV2 phyAlloc 5 6).1
      ∧ ((phyConnect phyAlloc 5 6).2.map fun r => (r.1, r.2.1))
          = ((phyConnectV2 phyAlloc 5 6).2.map fun r => (r.1, r.2.1))
      ∧ ((phyConnect phyAlloc 5 6).2 = Except.ok (6, 5, 5)
          ∧ (phyConnectV2 phyAlloc 5 6).2 = Except.ok (6, 5, phyAlloc.clients)) :=
  ⟨(phyConnect_variants_agree phyAlloc 5 6).1,
   (phyConnect_variants_agree phyAlloc 5 6).2.1,
   (phyConnect_variants_agree phyAlloc 5 6).2.2 (by decide)⟩

/-- The zeroing loop of `phyShutdown` yields the all-zero table whenever
the slots beyond the loop bound already held zero. -/
theorem zeroFirst_eq_replicate :
    ∀ (l : List Nat) (n : Nat),
      (∀ i, i < l.length → n ≤ i → l.getD i 0 = 0) →
      zeroFirst n l = List.replicate l.length 0 := by
  intro l
  induction l with
  | nil =>
    intro n _
    cases n <;> rfl
  | cons x xs ih =>
    intro n h
    cases n with
    | zero =>
      have hx : x = 0 := h 0 (by simp) (Nat.zero_le _)
      have hxs : xs = List.replicate xs.length 0 := by
        have hz := ih 0 (fun i hi _ =>
          h (i + 1) (by simpa using Nat.succ_lt_succ hi) (Nat.zero_le _))
        simpa [zeroFirst] using hz
      show x :: xs = List.replicate (x :: xs).length 0
      rw [List.length_cons, List.replicate_succ, hx, ← hxs]
    | succ m =>
      have hxs := ih m (fun i hi hmi =>
        h (i + 1) (by simpa using Nat.succ_lt_succ hi) (by omega))
      show 0 :: zeroFirst m xs = List.replicate (x :: xs).length 0
      rw [List.length_cons, List.replicate_succ, hxs]

/-- C10: after `phyShutdown`, the descriptor-holding fields equal the
freshly-allocated all-zero state: the client count is 0, the epoll field is
0, and the socket table is all zero (each slot that was in use has been
reset; the unused slots already held zero in any PHY built by `phyAlloc`
and `phyConnect`, which is the stated hypothesis).  The epoll scratch event
array is not modified and the PHY record itself is not released. -/
theorem phyShutdown_spec (phy : PhyState)
    (hlen : phy.sockets.length = MAX_PHY_ENDPOINTS)
    (hfree : ∀ i, i < phy.sockets.length → phy.clients ≤ i →
      phy.sockets.getD i 0 = 0) :
    (phyShutdown phy).clients = phyAlloc.clients
      ∧ (phyShutdown phy).epoll = phyAlloc.epoll
      ∧ (phyShutdown phy).sockets = phyAlloc.sockets
      ∧ (phyShutdown phy).events = phy.events := by
  refine ⟨rfl, rfl, ?_, rfl⟩
  show zeroFirst phy.clients phy.sockets = phyAlloc.sockets
  rw [zeroFirst_eq_replicate phy.sockets phy.clients hfree, hlen]
  rfl

/-- PHY in the state reached by two attaches: internal fds 5 and 7 in the
first two slots. -/
def phyUsed : PhyState :=
  { clients := 2, epoll := 3,
    sockets := 5 :: 7 :: List.replicate 254 0,
    events := List.replicate MAX_EPOLL_EVENTS 0 }

set_option maxRecDepth 8192 in
/-- C10 witness: shutting down the two-endpoint PHY restores the all-zero
descriptor state of a fresh allocation and keeps the event scratch array. -/
theorem phyShutdown_spec_witness :
    (phyShutdown phyUsed).clients = phyAlloc.clients
      ∧ (phyShutdown phyUsed).epoll = phyAlloc.epoll
      ∧ (phyShutdown phyUsed).sockets = phyAlloc.sockets
      ∧ (phyShutdown phyUsed).events = phyUsed.events :=
  phyShutdown_spec phyUsed (by decide) (by decide)
